import Mathlib

/-!
Verification of the apollo-rs parser/encoder specification against the
source of `crates/apollo-parser/src/parser/mod.rs` and
`crates/apollo-encoder/src/enum_value.rs`.

The parser state and its operations (`bump`, `eat`, `expect`, `err`,
`err_and_pop`, `start_node`, `peek_n`, ...) are embedded from
`parser/mod.rs`.  The Rust code keeps the token vector *reversed* so that
`Vec::pop` yields the next token in source order; the embedding stores the
same stream in source order with the list head as the next token (the two
reversals cancel for every stream access: `pop`/`last` on the reversed
vector is `head` here, and `iter().rev()` is the source-order list itself).
The error vector is never popped, so its `errors.reverse()` in
`Parser::new` is embedded literally.

The tree builder (`SyntaxTreeBuilder`), the `SyntaxKind` enum, the lexer
and the grammar module are not part of the provided sources; they are
modelled from the specification where a claim needs them, and each such
definition is marked `Modelled from the spec:` in its doc comment.
-/

namespace Apollo

/-- TokenKind, the closed enum of lexical token kinds (spec §3). -/
inductive TokenKind where
  | bang | dollar | lParen | rParen | spread | colon | eq | at | lBracket | rBracket
  | lBrace | rBrace | pipe
  | name | stringValue | int | float
  | whitespace | comment | comma
  | eof
deriving DecidableEq, Repr

/-- Token: kind, exact matched text, starting byte offset (spec §3). -/
structure Token where
  kind : TokenKind
  data : String
  index : Nat
deriving DecidableEq, Repr

/-- Error: message, offending text, byte offset (spec §3, `error.rs`). -/
structure Error where
  message : String
  data : String
  index : Nat
deriving DecidableEq, Repr

/-- Embeds `Error::with_loc(message, data, index)`. -/
def Error.with_loc (message data : String) (index : Nat) : Error :=
  ⟨message, data, index⟩

/-- Modelled from the spec: `SyntaxKind` lives in the generated module
(`parser/generated/syntax_kind.rs`), which is not under the provided
sources.  The variants are the ones the spec lists in §3: token-kind
mirrors and composite node kinds. -/
inductive SyntaxKind where
  | BANG | DOLLAR | L_PAREN | R_PAREN | SPREAD | COLON | EQ | AT | L_BRACKET | R_BRACKET
  | L_BRACE | R_BRACE | PIPE
  | NAME | STRING | INT | FLOAT
  | WHITESPACE | COMMENT | COMMA
  | DOCUMENT | OPERATION_DEFINITION | FIELD | SELECTION_SET | ARGUMENTS | DIRECTIVE
  | FRAGMENT_DEFINITION | OBJECT_TYPE_DEFINITION | INTERFACE_TYPE_DEFINITION
  | UNION_TYPE_DEFINITION | ENUM_TYPE_DEFINITION | INPUT_OBJECT_TYPE_DEFINITION
  | SCALAR_TYPE_DEFINITION | SCHEMA_DEFINITION | DIRECTIVE_DEFINITION
  | FIELD_DEFINITION | INPUT_VALUE_DEFINITION | ENUM_VALUE_DEFINITION
  | VARIABLE | STRING_VALUE | INT_VALUE | FLOAT_VALUE | BOOLEAN_VALUE | NULL_VALUE
  | ENUM_VALUE | LIST_VALUE | OBJECT_VALUE | OBJECT_FIELD
  | NAMED_TYPE | LIST_TYPE | NON_NULL_TYPE
  | ERROR
deriving DecidableEq, Repr

/-- The string `format!("{:?}", kind)` produces for a `SyntaxKind`
(Rust's derived `Debug` prints the bare variant name). -/
def SyntaxKind.debugStr : SyntaxKind → String
  | .BANG => "BANG" | .DOLLAR => "DOLLAR" | .L_PAREN => "L_PAREN" | .R_PAREN => "R_PAREN"
  | .SPREAD => "SPREAD" | .COLON => "COLON" | .EQ => "EQ" | .AT => "AT"
  | .L_BRACKET => "L_BRACKET" | .R_BRACKET => "R_BRACKET"
  | .L_BRACE => "L_BRACE" | .R_BRACE => "R_BRACE" | .PIPE => "PIPE"
  | .NAME => "NAME" | .STRING => "STRING" | .INT => "INT" | .FLOAT => "FLOAT"
  | .WHITESPACE => "WHITESPACE" | .COMMENT => "COMMENT" | .COMMA => "COMMA"
  | .DOCUMENT => "DOCUMENT" | .OPERATION_DEFINITION => "OPERATION_DEFINITION"
  | .FIELD => "FIELD" | .SELECTION_SET => "SELECTION_SET" | .ARGUMENTS => "ARGUMENTS"
  | .DIRECTIVE => "DIRECTIVE" | .FRAGMENT_DEFINITION => "FRAGMENT_DEFINITION"
  | .OBJECT_TYPE_DEFINITION => "OBJECT_TYPE_DEFINITION"
  | .INTERFACE_TYPE_DEFINITION => "INTERFACE_TYPE_DEFINITION"
  | .UNION_TYPE_DEFINITION => "UNION_TYPE_DEFINITION"
  | .ENUM_TYPE_DEFINITION => "ENUM_TYPE_DEFINITION"
  | .INPUT_OBJECT_TYPE_DEFINITION => "INPUT_OBJECT_TYPE_DEFINITION"
  | .SCALAR_TYPE_DEFINITION => "SCALAR_TYPE_DEFINITION"
  | .SCHEMA_DEFINITION => "SCHEMA_DEFINITION"
  | .DIRECTIVE_DEFINITION => "DIRECTIVE_DEFINITION"
  | .FIELD_DEFINITION => "FIELD_DEFINITION"
  | .INPUT_VALUE_DEFINITION => "INPUT_VALUE_DEFINITION"
  | .ENUM_VALUE_DEFINITION => "ENUM_VALUE_DEFINITION"
  | .VARIABLE => "VARIABLE" | .STRING_VALUE => "STRING_VALUE" | .INT_VALUE => "INT_VALUE"
  | .FLOAT_VALUE => "FLOAT_VALUE" | .BOOLEAN_VALUE => "BOOLEAN_VALUE"
  | .NULL_VALUE => "NULL_VALUE" | .ENUM_VALUE => "ENUM_VALUE"
  | .LIST_VALUE => "LIST_VALUE" | .OBJECT_VALUE => "OBJECT_VALUE"
  | .OBJECT_FIELD => "OBJECT_FIELD" | .NAMED_TYPE => "NAMED_TYPE"
  | .LIST_TYPE => "LIST_TYPE" | .NON_NULL_TYPE => "NON_NULL_TYPE"
  | .ERROR => "ERROR"

/-- Green-tree child (spec §3): a composite node or a leaf token. -/
inductive GreenChild where
  | node (kind : SyntaxKind) (children : List GreenChild)
  | token (kind : SyntaxKind) (text : String)

/-- The final tree (spec §3): the children accumulated under the builder's
implicit root frame, together with the accumulated errors. -/
structure SyntaxTree where
  root : List GreenChild
  errors : List Error

/-- Modelled from the spec: `SyntaxTreeBuilder` (`parser/syntax_tree.rs`
is not under the provided sources).  Spec §4.2: a stack-based builder with
one implicit root frame; `start_node` pushes a frame, `token` appends a
leaf to the top frame, `finish_node` pops the top frame and attaches it as
a child of the new top, `finish` requires exactly the implicit frame to
remain.  `root` is the implicit frame's child list; `frames` holds the
open nodes, innermost first. -/
structure SyntaxTreeBuilder where
  root : List GreenChild
  frames : List (SyntaxKind × List GreenChild)

/-- Modelled from the spec: a fresh builder (one implicit frame, empty). -/
def SyntaxTreeBuilder.new : SyntaxTreeBuilder := ⟨[], []⟩

/-- Modelled from the spec: append a leaf token to the top frame. -/
def SyntaxTreeBuilder.token (b : SyntaxTreeBuilder) (kind : SyntaxKind) (text : String) :
    SyntaxTreeBuilder :=
  match b.frames with
  | [] => { b with root := b.root ++ [.token kind text] }
  | (fk, cs) :: rest => { b with frames := (fk, cs ++ [.token kind text]) :: rest }

/-- Modelled from the spec: open a new node. -/
def SyntaxTreeBuilder.start_node (b : SyntaxTreeBuilder) (kind : SyntaxKind) :
    SyntaxTreeBuilder :=
  { b with frames := (kind, []) :: b.frames }

/-- Modelled from the spec: close the innermost open node, attaching it to
its parent frame (misuse — no open node — fails loudly, hence `none`). -/
def SyntaxTreeBuilder.finish_node (b : SyntaxTreeBuilder) : Option SyntaxTreeBuilder :=
  match b.frames with
  | [] => none
  | (fk, cs) :: rest =>
    match rest with
    | [] => some { b with root := b.root ++ [.node fk cs], frames := [] }
    | (pk, pcs) :: rrest => some { b with frames := (pk, pcs ++ [.node fk cs]) :: rrest }

/-- Modelled from the spec: `finish(errors)` requires exactly the implicit
frame to remain and returns the tree with the accumulated errors. -/
def SyntaxTreeBuilder.finish (b : SyntaxTreeBuilder) (errors : List Error) :
    Option SyntaxTree :=
  match b.frames with
  | [] => some ⟨b.root, errors⟩
  | _ => none

/-- The parser state of `parser/mod.rs`: the remaining token stream (list
head = next token, see the module comment), the in-progress builder and
the accumulated errors.  The Rust struct shares the builder through
`Rc<RefCell<_>>`; the embedding passes the state explicitly. -/
structure Parser where
  tokens : List Token
  builder : SyntaxTreeBuilder
  errors : List Error

/-- Embeds `Parser::new`: the lexer's tokens and errors (both in source order,
spec §4.1) are taken over; `tokens.reverse()` combined with end-popping is
the identity on the access order (module comment), while
`errors.reverse()` is applied to a vector that is only ever appended to
afterwards, so it is embedded literally. -/
def Parser.new (lexedTokens : List Token) (lexedErrors : List Error) : Parser :=
  { tokens := lexedTokens
    builder := SyntaxTreeBuilder.new
    errors := lexedErrors.reverse }

/-- Embeds `Parser::peek`: kind of the next token. -/
def Parser.peek (p : Parser) : Option TokenKind :=
  p.tokens.head?.map Token.kind

/-- Embeds `Parser::peek_token`: the next token itself. -/
def Parser.peek_token (p : Parser) : Option Token :=
  p.tokens.head?

/-- Embeds `Parser::at`: whether the next token has kind `token`
(`at` is a Lean keyword, hence the trailing tick). -/
def Parser.at' (p : Parser) (token : TokenKind) : Bool :=
  match p.peek with
  | some t => t == token
  | none => false

/-- Embeds `Parser::current`: the next token; the source `expect`s (panics) on an
exhausted stream, embedded as `none`. -/
def Parser.current (p : Parser) : Option Token :=
  p.peek_token

/-- Embeds `Parser::eat`: pop the next token and emit it to the builder with the
given `SyntaxKind`; the source panics on an exhausted stream (`none`). -/
def Parser.eat (p : Parser) (kind : SyntaxKind) : Option Parser :=
  match p.tokens with
  | [] => none
  | t :: ts => some { p with tokens := ts, builder := p.builder.token kind t.data }

/-- The loop body of `Parser::bump_ignored`.  The source's `while` loop
runs `self.bump(COMMENT/WHITESPACE/COMMA)` for each trivia token at the
head of the stream (each such `bump` is an `eat` followed by a recursive
`bump_ignored`), so its net effect is to consume the leading trivia run
one token at a time, emitting each with its trivia `SyntaxKind`; the
embedding performs exactly that token-at-a-time drain. -/
def bumpIgnoredGo : List Token → SyntaxTreeBuilder → List Token × SyntaxTreeBuilder
  | t :: ts, b =>
    if t.kind = .comment then bumpIgnoredGo ts (b.token .COMMENT t.data)
    else if t.kind = .whitespace then bumpIgnoredGo ts (b.token .WHITESPACE t.data)
    else if t.kind = .comma then bumpIgnoredGo ts (b.token .COMMA t.data)
    else (t :: ts, b)
  | [], b => ([], b)

/-- Embeds `Parser::bump_ignored`: consume ignored (trivia) tokens and add them
to the tree. -/
def Parser.bump_ignored (p : Parser) : Parser :=
  let r := bumpIgnoredGo p.tokens p.builder
  { p with tokens := r.1, builder := r.2 }

/-- Embeds `Parser::bump`: consume a token and any ignored tokens that follow. -/
def Parser.bump (p : Parser) (kind : SyntaxKind) : Option Parser :=
  (p.eat kind).map Parser.bump_ignored

/-- Embeds `Parser::push_err`: append an error to the parser's error vector. -/
def Parser.push_err (p : Parser) (err : Error) : Parser :=
  { p with errors := p.errors ++ [err] }

/-- Embeds `Parser::err`: record an error carrying the current token's data and
index (panics — `none` — on an exhausted stream). -/
def Parser.err (p : Parser) (message : String) : Option Parser :=
  (p.current).map fun current =>
    p.push_err (Error.with_loc message current.data current.index)

/-- Embeds `Parser::pop`: pop the next token (panics — `none` — when empty). -/
def Parser.pop (p : Parser) : Option (Token × Parser) :=
  match p.tokens with
  | [] => none
  | t :: ts => some (t, { p with tokens := ts })

/-- Embeds `Parser::err_and_pop`: pop the current token, bump the ignored tokens
that follow, then record an error carrying the popped token's data and
index. -/
def Parser.err_and_pop (p : Parser) (message : String) : Option Parser :=
  match p.tokens with
  | [] => none
  | t :: ts =>
    let p1 := Parser.bump_ignored { p with tokens := ts }
    some (p1.push_err (Error.with_loc message t.data t.index))

/-- Embeds `Parser::expect`: consume the next token if it has kind `token`,
otherwise record `"expected <kind>, got <data>"` without advancing.  The
source clones the current token first, so an exhausted stream panics
(`none`) on either path. -/
def Parser.expect (p : Parser) (token : TokenKind) (kind : SyntaxKind) : Option Parser :=
  match p.tokens with
  | [] => none
  | t :: _ =>
    if p.at' token then p.bump kind
    else some (p.push_err (Error.with_loc
      ("expected " ++ kind.debugStr ++ ", got " ++ t.data) t.data t.index))

/-- Embeds `Parser::push_ast`: insert a token into the tree. -/
def Parser.push_ast (p : Parser) (kind : SyntaxKind) (token : Token) : Parser :=
  { p with builder := p.builder.token kind token.data }

/-- Embeds `Parser::start_node`: start a node (the returned `NodeGuard` is the
obligation to call `finish_node` later) and bump the ignored tokens. -/
def Parser.start_node (p : Parser) (kind : SyntaxKind) : Parser :=
  Parser.bump_ignored { p with builder := p.builder.start_node kind }

/-- Embeds `NodeGuard::finish_node` / the guard's drop: close the current node. -/
def Parser.finish_node (p : Parser) : Option Parser :=
  (p.builder.finish_node).map fun b => { p with builder := b }

/-- Embeds `Parser::peek_n`: the source iterates the reversed vector in reverse
(= source order), filters out `Whitespace | Comment`, and takes element
`n - 1`. -/
def Parser.peek_n (p : Parser) (n : Nat) : Option TokenKind :=
  ((p.tokens.filter fun t => !(t.kind == .whitespace || t.kind == .comment)).get? (n - 1)).map
    Token.kind

/-- Embeds `Parser::peek_data`: the next token's text. -/
def Parser.peek_data (p : Parser) : Option String :=
  p.tokens.head?.map Token.data

/-- Embeds `Parser::peek_data_n`: like `peek_n` but returning the text. -/
def Parser.peek_data_n (p : Parser) (n : Nat) : Option String :=
  ((p.tokens.filter fun t => !(t.kind == .whitespace || t.kind == .comment)).get? (n - 1)).map
    Token.data



/-! ## Text measures -/

mutual

/-- Total text of a green child: leaf text, or the concatenation of the
descendant token texts (spec §4.3). -/
def GreenChild.text : GreenChild → String
  | .token _ t => t
  | .node _ cs => GreenChild.textList cs

/-- Concatenated text of a list of green children, in order. -/
def GreenChild.textList : List GreenChild → String
  | [] => ""
  | c :: cs => c.text ++ GreenChild.textList cs

end

/-- Concatenation of a list of strings, in order. -/
def strJoin : List String → String
  | [] => ""
  | s :: l => s ++ strJoin l

/-- All token text emitted to the builder so far, in emission order: the
implicit root frame first, then each open frame from outermost to
innermost. -/
def SyntaxTreeBuilder.builderText (b : SyntaxTreeBuilder) : String :=
  GreenChild.textList b.root ++ strJoin ((b.frames.reverse).map fun f => GreenChild.textList f.2)

/-- Concatenated `data` of a token stream, in order. -/
def tokensText : List Token → String
  | [] => ""
  | t :: ts => t.data ++ tokensText ts

/-- All input text a parser state still accounts for: text already in the
builder followed by the text of the unconsumed stream. -/
def Parser.totalText (p : Parser) : String :=
  p.builder.builderText ++ tokensText p.tokens

/-! ## The lexer and the top-level grammar rule, modelled from the spec

The lexer (`crates/apollo-parser/src/lexer`) and the grammar module
(`parser/grammar`) are not under the provided sources; the fragments the
claims need are modelled from the specification. -/

/-- Spec §4.1: whitespace characters (space, tab, CR, LF). -/
def isWsChar (c : Char) : Bool :=
  c == ' ' || c == '\t' || c == '\r' || c == '\n'

/-- Spec §4.1: name start, `[_A-Za-z]`. -/
def isNameStart (c : Char) : Bool :=
  c == '_' || c.isAlpha

/-- Spec §4.1: name continuation, `[_A-Za-z0-9]`. -/
def isNameCont (c : Char) : Bool :=
  isNameStart c || c.isDigit

/-- Byte length of a character run (token indices are byte offsets). -/
def charsBytes (l : List Char) : Nat :=
  l.foldl (fun a c => a + c.utf8Size) 0

/-- Single-character punctuator kinds (spec §3). -/
def punctKind (c : Char) : Option TokenKind :=
  if c == '!' then some .bang
  else if c == '$' then some .dollar
  else if c == '(' then some .lParen
  else if c == ')' then some .rParen
  else if c == ':' then some .colon
  else if c == '=' then some .eq
  else if c == '@' then some .at
  else if c == '[' then some .lBracket
  else if c == ']' then some .rBracket
  else if c == '\x7b' then some .lBrace
  else if c == '\x7d' then some .rBrace
  else if c == '|' then some .pipe
  else none

/-- Modelled from the spec: the lexer's scan loop (§4.1).  Whitespace
runs, commas, comments, names, punctuators (including the
three-character spread) and the unexpected-character error case are
modelled; an unexpected character emits an `Error` with the offending
substring and its starting byte index and produces **no** token, with the
cursor advancing past it.  Number and string lexemes, which no claim
needs, are left unmodelled (`none`).  The fuel argument only bounds the
loop; each step consumes at least one character, so `length + 1` fuel is
never exhausted on the inputs evaluated here. -/
def lexGo : Nat → List Char → Nat → List Token → List Error →
    Option (List Token × List Error)
  | 0, _, _, _, _ => none
  | _ + 1, [], pos, toks, errs => some (toks ++ [⟨.eof, "", pos⟩], errs)
  | fuel + 1, c :: cs, pos, toks, errs =>
    if isWsChar c then
      let run := c :: cs.takeWhile isWsChar
      lexGo fuel (cs.dropWhile isWsChar) (pos + charsBytes run)
        (toks ++ [⟨.whitespace, ⟨run⟩, pos⟩]) errs
    else if c == ',' then
      lexGo fuel cs (pos + 1) (toks ++ [⟨.comma, ",", pos⟩]) errs
    else if c == '#' then
      let run := c :: cs.takeWhile (fun d => d != '\n')
      lexGo fuel (cs.dropWhile (fun d => d != '\n')) (pos + charsBytes run)
        (toks ++ [⟨.comment, ⟨run⟩, pos⟩]) errs
    else if isNameStart c then
      let run := c :: cs.takeWhile isNameCont
      lexGo fuel (cs.dropWhile isNameCont) (pos + charsBytes run)
        (toks ++ [⟨.name, ⟨run⟩, pos⟩]) errs
    else if c == '.' then
      match cs with
      | '.' :: '.' :: rest =>
        lexGo fuel rest (pos + 3) (toks ++ [⟨.spread, "...", pos⟩]) errs
      | _ =>
        lexGo fuel cs (pos + 1) toks (errs ++ [⟨"Unexpected character", ".", pos⟩])
    else if c.isDigit || c == '-' || c == '"' then none
    else
      match punctKind c with
      | some k => lexGo fuel cs (pos + 1) (toks ++ [⟨k, ⟨[c]⟩, pos⟩]) errs
      | none =>
        lexGo fuel cs (pos + c.utf8Size) toks
          (errs ++ [⟨"Unexpected character", ⟨[c]⟩, pos⟩])

/-- Modelled from the spec: `lex(input) -> (tokens, errors)`, both in
source order, tokens ending with `Eof` at `index = input.len()` (§4.1). -/
def lex (s : String) : Option (List Token × List Error) :=
  lexGo (s.data.length + 1) s.data 0 [] []

/-- Modelled from the spec: the dispatch loop of `grammar::document`
(§4.4 entry point).  Each iteration dispatches on the next token: `Eof`
(or an exhausted stream) ends the loop; tokens that open a definition
(`\x7b`, a keyword-classified `Name`, a `StringValue` description) enter
grammar productions no claim needs, left unmodelled (`none`); anything
else emits an error and pops one token to advance.  Fuel only bounds the
loop; `err_and_pop` consumes at least one token per iteration. -/
def documentLoop : Nat → Parser → Option Parser
  | 0, _ => none
  | fuel + 1, p =>
    match p.peek with
    | none => some p
    | some .eof => some p
    | some .lBrace => none
    | some .name => none
    | some .stringValue => none
    | some _ => (p.err_and_pop "expected definition").bind (documentLoop fuel)

/-- Modelled from the spec: `grammar::document::document` — under a
`DOCUMENT` node (opened with `Parser::start_node`, closed by its guard),
loop over top-level definitions until `Eof` (§4.4). -/
def document (p : Parser) : Option Parser :=
  (documentLoop (( p.start_node .DOCUMENT).tokens.length + 1) (p.start_node .DOCUMENT)).bind
    Parser.finish_node

/-- Embeds `Parser::parse`: run `grammar::document::document`, then
`builder.finish(self.errors)` (the `Rc::try_unwrap` misuse assertion has
no counterpart in the state-passing embedding). -/
def Parser.parse (p : Parser) : Option SyntaxTree :=
  (document p).bind fun q => q.builder.finish q.errors

/-- End-to-end parse of an input string: lex (spec-modelled), then
`Parser::new` and `Parser::parse` (embedded from `parser/mod.rs`). -/
def parseInput (s : String) : Option SyntaxTree :=
  (lex s).bind fun r => (Parser.new r.1 r.2).parse

/-! ## The encoder: `StringValue` (modelled from the spec) and
`EnumValue` (embedded from `apollo-encoder/src/enum_value.rs`) -/

/-- Modelled from the spec: `StringValue` (`apollo-encoder/src/string_value.rs`
is not under the provided sources), the four positional variants of §6. -/
inductive StringValue where
  | top (source : Option String)
  | field (source : Option String)
  | input (source : Option String)
  | reason (source : Option String)
deriving DecidableEq, Repr

/-- Modelled from the spec: a source renders in block-string form when it
is multi-line or contains a double quote (§6). -/
def isBlockStr (s : String) : Bool :=
  s.data.any (fun c => c == '\n' || c == '"')

/-- Each line prefixed by a two-space indent, lines rejoined. -/
def indentLines (s : String) : String :=
  strJoin (((s.splitOn "\n").map (fun l => "  " ++ l)).intersperse "\n")

/-- Modelled from the spec: the `Display` output of a `StringValue` (§6
formatting rules, pinned down by the test expectations in
`enum_value.rs`): absent source renders nothing; a `Field` description
renders on its own line at two-space indent; a `Reason` renders inline
after `(reason:`; block-string form triples the quotes and indents each
content line. -/
def StringValue.display : StringValue → String
  | .top none | .field none | .input none | .reason none => ""
  | .top (some s) =>
    if isBlockStr s then "\"\"\"\n" ++ s ++ "\n\"\"\"\n" else "\"" ++ s ++ "\"\n"
  | .field (some s) | .input (some s) =>
    if isBlockStr s then "  \"\"\"\n" ++ indentLines s ++ "\n  \"\"\"\n"
    else "  \"" ++ s ++ "\"\n"
  | .reason (some s) =>
    if isBlockStr s then "\n  \"\"\"\n" ++ indentLines s ++ "\n  \"\"\"\n  "
    else " \"" ++ s ++ "\""

/-- Embeds `EnumValue` (`enum_value.rs`): name, description, deprecation flag and
reason. -/
structure EnumValue where
  name : String
  description : StringValue
  is_deprecated : Bool
  deprecation_reason : StringValue
deriving DecidableEq, Repr

/-- Embeds `EnumValueBuilder` (`enum_value.rs`). -/
structure EnumValueBuilder where
  name : String
  description : Option String
  deprecation_reason : Option String
deriving DecidableEq, Repr

/-- Embeds `EnumValueBuilder::new(name)`. -/
def EnumValueBuilder.new (name : String) : EnumValueBuilder :=
  { name := name, description := none, deprecation_reason := none }

/-- Embeds `EnumValueBuilder::description(description)`. -/
def EnumValueBuilder.description' (b : EnumValueBuilder) (description : String) :
    EnumValueBuilder :=
  { b with description := some description }

/-- Embeds `EnumValueBuilder::deprecated(reason)`. -/
def EnumValueBuilder.deprecated (b : EnumValueBuilder) (reason : String) :
    EnumValueBuilder :=
  { b with deprecation_reason := some reason }

/-- Embeds `EnumValueBuilder::build()`: `is_deprecated` is
`deprecation_reason.is_some()`, and the reason is always wrapped in
`StringValue::Reason`. -/
def EnumValueBuilder.build (b : EnumValueBuilder) : EnumValue :=
  { name := b.name
    description := .field b.description
    is_deprecated := b.deprecation_reason.isSome
    deprecation_reason := .reason b.deprecation_reason }

/-- Embeds `impl fmt::Display for EnumValue`: description, then two-space indent
and the name; when `is_deprecated`, ` @deprecated` and — since the reason
field is always a `StringValue::Reason` — `(reason:`, the reason's
display, `)`. -/
def EnumValue.display (e : EnumValue) : String :=
  StringValue.display e.description ++ "  " ++ e.name ++
    (if e.is_deprecated then
      " @deprecated" ++
        (match e.deprecation_reason with
          | .reason _ => "(reason:" ++ StringValue.display e.deprecation_reason ++ ")"
          | _ => "")
    else "")


/-! ## Spec-side characterizations and helper lemmas -/

/-- A trivia token per the spec's glossary: whitespace, comment or comma. -/
def isTriviaTok (t : Token) : Bool :=
  t.kind == .comment || t.kind == .whitespace || t.kind == .comma

/-- The trivia `SyntaxKind` `bump_ignored` emits for a trivia token kind. -/
def triviaKind : TokenKind → SyntaxKind
  | .comment => .COMMENT
  | .whitespace => .WHITESPACE
  | .comma => .COMMA
  | _ => .ERROR

/-- The stream used by the C3 statements: a comma then a name. -/
def commaStream : List Token :=
  [⟨.comma, ",", 0⟩, ⟨.name, "x", 1⟩, ⟨.eof, "", 2⟩]

/-- The k-th token kind skipping all three trivia kinds (whitespace,
comment and comma) — the claim's reading of the lookahead. -/
def nthSkippingTrivia : List Token → Nat → Option TokenKind
  | [], _ => none
  | t :: ts, n =>
    if t.kind = .whitespace ∨ t.kind = .comment ∨ t.kind = .comma then
      nthSkippingTrivia ts n
    else if n ≤ 1 then some t.kind
    else nthSkippingTrivia ts (n - 1)

/-- The k-th token kind skipping only whitespace and comments. -/
def nthSkippingWsComment : List Token → Nat → Option TokenKind
  | [], _ => none
  | t :: ts, n =>
    if t.kind = .whitespace ∨ t.kind = .comment then nthSkippingWsComment ts n
    else if n ≤ 1 then some t.kind
    else nthSkippingWsComment ts (n - 1)

/-- A builder state with 600 open nodes, far beyond the recommended
depth limit of 500. -/
def deepFrames : List (SyntaxKind × List GreenChild) :=
  List.replicate 600 (SyntaxKind.SELECTION_SET, [])

/-- A parser state whose builder is nested 600 deep. -/
def deepParser : Parser :=
  { tokens := [⟨.lBrace, "\x7b", 600⟩, ⟨.eof, "", 601⟩]
    builder := ⟨[], deepFrames⟩
    errors := [] }

/-- Whether `pat` occurs as a contiguous substring of `s`. -/
def strContains (s pat : String) : Bool :=
  s.data.tails.any fun t => pat.data.isPrefixOf t

/-- An enum value whose *name* contains a deprecation-like suffix but on
whose builder `deprecated` was never called. -/
def advEnumValue : EnumValue :=
  (EnumValueBuilder.new "X @deprecated(reason: \"y\")").build

theorem bumpIgnoredGo_spec (ts : List Token) (b : SyntaxTreeBuilder) :
    bumpIgnoredGo ts b =
      (ts.dropWhile isTriviaTok,
       (ts.takeWhile isTriviaTok).foldl
         (fun bb u => bb.token (triviaKind u.kind) u.data) b) := by
  induction ts generalizing b with
  | nil => rfl
  | cons t ts ih =>
    by_cases hc : t.kind = .comment
    · simp [bumpIgnoredGo, hc, isTriviaTok, List.dropWhile_cons, List.takeWhile_cons, ih,
        triviaKind]
    · by_cases hw : t.kind = .whitespace
      · simp [bumpIgnoredGo, hc, hw, isTriviaTok, List.dropWhile_cons, List.takeWhile_cons,
          ih, triviaKind]
      · by_cases hm : t.kind = .comma
        · simp [bumpIgnoredGo, hc, hw, hm, isTriviaTok, List.dropWhile_cons,
            List.takeWhile_cons, ih, triviaKind]
        · simp [bumpIgnoredGo, hc, hw, hm, isTriviaTok, List.dropWhile_cons,
            List.takeWhile_cons]

theorem bump_ignored_spec (p : Parser) :
    p.bump_ignored =
      { tokens := p.tokens.dropWhile isTriviaTok
        builder := (p.tokens.takeWhile isTriviaTok).foldl
          (fun bb u => bb.token (triviaKind u.kind) u.data) p.builder
        errors := p.errors } := by
  simp [Parser.bump_ignored, bumpIgnoredGo_spec]

theorem textList_append (l l' : List GreenChild) :
    GreenChild.textList (l ++ l') = GreenChild.textList l ++ GreenChild.textList l' := by
  induction l with
  | nil => simp [GreenChild.textList]
  | cons c cs ih => simp [GreenChild.textList, ih, String.append_assoc]

theorem strJoin_append (l l' : List String) :
    strJoin (l ++ l') = strJoin l ++ strJoin l' := by
  induction l with
  | nil => simp [strJoin]
  | cons s ss ih => simp [strJoin, ih, String.append_assoc]

theorem tokensText_append (l l' : List Token) :
    tokensText (l ++ l') = tokensText l ++ tokensText l' := by
  induction l with
  | nil => simp [tokensText]
  | cons t ts ih => simp [tokensText, ih, String.append_assoc]

theorem builderText_token (b : SyntaxTreeBuilder) (k : SyntaxKind) (d : String) :
    (b.token k d).builderText = b.builderText ++ d := by
  match hb : b.frames with
  | [] =>
    simp [SyntaxTreeBuilder.token, SyntaxTreeBuilder.builderText, hb, textList_append,
      GreenChild.textList, GreenChild.text, strJoin, String.append_empty,
      String.append_assoc]
  | (fk, cs) :: rest =>
    simp [SyntaxTreeBuilder.token, SyntaxTreeBuilder.builderText, hb, List.reverse_cons,
      List.map_append, strJoin_append, textList_append, GreenChild.textList,
      GreenChild.text, strJoin, String.append_empty, String.append_assoc]

theorem builderText_start_node (b : SyntaxTreeBuilder) (k : SyntaxKind) :
    (b.start_node k).builderText = b.builderText := by
  simp [SyntaxTreeBuilder.start_node, SyntaxTreeBuilder.builderText, List.reverse_cons,
    List.map_append, strJoin_append, strJoin, GreenChild.textList, String.append_empty]

theorem foldl_token_builderText (l : List Token) (b : SyntaxTreeBuilder) :
    ((l.foldl (fun bb u => bb.token (triviaKind u.kind) u.data) b)).builderText =
      b.builderText ++ tokensText l := by
  induction l generalizing b with
  | nil => simp [tokensText, String.append_empty]
  | cons t ts ih =>
    simp [List.foldl_cons, ih, builderText_token, tokensText, String.append_assoc]

theorem bump_ignored_totalText (p : Parser) :
    p.bump_ignored.totalText = p.totalText := by
  rw [bump_ignored_spec]
  simp only [Parser.totalText, foldl_token_builderText]
  rw [String.append_assoc, ← tokensText_append, List.takeWhile_append_dropWhile]


/-! ## Claim theorems -/

/-- C7: `bump(syntax_kind)` pops exactly one token, emits it to the
builder tagged with `syntax_kind`, then consumes every immediately
following trivia token (whitespace, comment or comma), emitting each with
its corresponding trivia `SyntaxKind`, stopping at the first non-trivia
token; the errors are untouched. -/
theorem bump_pops_one_then_trivia (p : Parser) (k : SyntaxKind) (t : Token)
    (ts : List Token) (h : p.tokens = t :: ts) :
    p.bump k = some
      { tokens := ts.dropWhile isTriviaTok
        builder := (ts.takeWhile isTriviaTok).foldl
          (fun bb u => bb.token (triviaKind u.kind) u.data) (p.builder.token k t.data)
        errors := p.errors } := by
  simp [Parser.bump, Parser.eat, h, bump_ignored_spec]

/-- Witness for `bump_pops_one_then_trivia` at a concrete state: a name
token followed by a comma, a comment and a right brace. -/
theorem bump_pops_one_then_trivia_witness :
    (⟨[⟨.name, "a", 0⟩, ⟨.comma, ",", 1⟩, ⟨.comment, "#c", 2⟩, ⟨.rBrace, "\x7d", 4⟩],
       SyntaxTreeBuilder.new, []⟩ : Parser).tokens =
        ⟨.name, "a", 0⟩ :: [⟨.comma, ",", 1⟩, ⟨.comment, "#c", 2⟩, ⟨.rBrace, "\x7d", 4⟩] ∧
    (⟨[⟨.name, "a", 0⟩, ⟨.comma, ",", 1⟩, ⟨.comment, "#c", 2⟩, ⟨.rBrace, "\x7d", 4⟩],
       SyntaxTreeBuilder.new, []⟩ : Parser).bump .NAME = some
      { tokens := [⟨.comma, ",", 1⟩, ⟨.comment, "#c", 2⟩,
          ⟨.rBrace, "\x7d", 4⟩].dropWhile isTriviaTok
        builder := ([⟨.comma, ",", 1⟩, ⟨.comment, "#c", 2⟩,
            ⟨.rBrace, "\x7d", 4⟩].takeWhile isTriviaTok).foldl
          (fun bb u => bb.token (triviaKind u.kind) u.data)
          (SyntaxTreeBuilder.new.token .NAME "a")
        errors := [] } :=
  ⟨rfl, bump_pops_one_then_trivia _ .NAME _ _ rfl⟩

/-- C9: `err_and_pop(msg)` removes the current token from the stream
without emitting its text into the tree, emits every immediately
following trivia token into the tree, and records an error carrying the
removed token's data and index. -/
theorem err_and_pop_discards_token (p : Parser) (msg : String) (t : Token)
    (ts : List Token) (h : p.tokens = t :: ts) :
    p.err_and_pop msg = some
      { tokens := ts.dropWhile isTriviaTok
        builder := (ts.takeWhile isTriviaTok).foldl
          (fun bb u => bb.token (triviaKind u.kind) u.data) p.builder
        errors := p.errors ++ [Error.with_loc msg t.data t.index] } := by
  simp [Parser.err_and_pop, h, bump_ignored_spec, Parser.push_err]

/-- Witness for `err_and_pop_discards_token` at a concrete state: a bang
token followed by whitespace and a name. -/
theorem err_and_pop_discards_token_witness :
    (⟨[⟨.bang, "!", 0⟩, ⟨.whitespace, " ", 1⟩, ⟨.name, "q", 2⟩],
       SyntaxTreeBuilder.new, []⟩ : Parser).tokens =
        ⟨.bang, "!", 0⟩ :: [⟨.whitespace, " ", 1⟩, ⟨.name, "q", 2⟩] ∧
    (⟨[⟨.bang, "!", 0⟩, ⟨.whitespace, " ", 1⟩, ⟨.name, "q", 2⟩],
       SyntaxTreeBuilder.new, []⟩ : Parser).err_and_pop "expected definition" = some
      { tokens := [⟨.whitespace, " ", 1⟩, ⟨.name, "q", 2⟩].dropWhile isTriviaTok
        builder := ([⟨.whitespace, " ", 1⟩, ⟨.name, "q", 2⟩].takeWhile isTriviaTok).foldl
          (fun bb u => bb.token (triviaKind u.kind) u.data) SyntaxTreeBuilder.new
        errors := [] ++ [Error.with_loc "expected definition" "!" 0] } :=
  ⟨rfl, err_and_pop_discards_token _ "expected definition" _ _ rfl⟩

/-- C6: `expect(token, kind)` bumps when the next token's kind equals
`token`; otherwise it records the error `"expected <kind debug>, got
<data>"` carrying the current token's data and index, leaving the stream
and the builder unchanged. -/
theorem expect_bumps_or_errs (p : Parser) (token : TokenKind) (kind : SyntaxKind)
    (t : Token) (ts : List Token) (h : p.tokens = t :: ts) :
    (t.kind = token → p.expect token kind = p.bump kind) ∧
    (t.kind ≠ token → p.expect token kind = some
      { p with errors := p.errors ++
          [Error.with_loc ("expected " ++ kind.debugStr ++ ", got " ++ t.data)
            t.data t.index] }) := by
  constructor
  · intro ht
    simp [Parser.expect, Parser.at', Parser.peek, h, ht]
  · intro ht
    simp [Parser.expect, Parser.at', Parser.peek, h, ht, Parser.push_err]

/-- Witness for `expect_bumps_or_errs` at a concrete state: the stream
holds a colon while a name is expected, so the failure branch fires; the
success branch holds vacuously. -/
theorem expect_bumps_or_errs_witness :
    (⟨[⟨.colon, ":", 0⟩], SyntaxTreeBuilder.new, []⟩ : Parser).tokens =
        ⟨.colon, ":", 0⟩ :: [] ∧
    ((⟨.colon, ":", 0⟩ : Token).kind ≠ .name) ∧
    (⟨[⟨.colon, ":", 0⟩], SyntaxTreeBuilder.new, []⟩ : Parser).expect .name .NAME = some
      { (⟨[⟨.colon, ":", 0⟩], SyntaxTreeBuilder.new, []⟩ : Parser) with
          errors := [] ++
            [Error.with_loc ("expected " ++ SyntaxKind.NAME.debugStr ++ ", got " ++ ":")
              ":" 0] } :=
  ⟨rfl, by decide,
    (expect_bumps_or_errs _ .name .NAME _ _ rfl).2 (by decide)⟩


/-- C1 (amended): `bump` and `start_node` preserve the total accounted
text (builder text followed by remaining stream text), while
`err_and_pop` removes the popped token's text from it entirely, so the
concatenated tree text equals the input only when no token is discarded. -/
theorem bump_preserves_text_err_and_pop_drops_it (p : Parser) (k : SyntaxKind)
    (msg : String) (t : Token) (ts : List Token) (h : p.tokens = t :: ts) :
    (p.bump k).map Parser.totalText = some p.totalText ∧
    (p.start_node k).totalText = p.totalText ∧
    p.totalText = p.builder.builderText ++ (t.data ++ tokensText ts) ∧
    (p.err_and_pop msg).map Parser.totalText =
      some (p.builder.builderText ++ tokensText ts) := by
  have hpe : ∀ (q : Parser) (e : Error), (q.push_err e).totalText = q.totalText :=
    fun q e => rfl
  refine ⟨?_, ?_, ?_, ?_⟩
  · have hb : p.bump k =
        some (Parser.bump_ignored ⟨ts, p.builder.token k t.data, p.errors⟩) := by
      simp [Parser.bump, Parser.eat, h]
    rw [hb, Option.map_some', bump_ignored_totalText]
    simp [Parser.totalText, builderText_token, tokensText, h, String.append_assoc]
  · simp only [Parser.start_node, bump_ignored_totalText]
    simp [Parser.totalText, builderText_start_node]
  · simp [Parser.totalText, h, tokensText]
  · have he : p.err_and_pop msg =
        some ((Parser.bump_ignored ⟨ts, p.builder, p.errors⟩).push_err
          (Error.with_loc msg t.data t.index)) := by
      simp [Parser.err_and_pop, h]
    rw [he, Option.map_some', hpe, bump_ignored_totalText]
    rfl

/-- Witness for `bump_preserves_text_err_and_pop_drops_it` at a concrete
state: a bang token followed by whitespace. -/
theorem bump_preserves_text_err_and_pop_drops_it_witness :
    (⟨[⟨.bang, "!", 0⟩, ⟨.whitespace, " ", 1⟩], SyntaxTreeBuilder.new, []⟩ : Parser).tokens
        = ⟨.bang, "!", 0⟩ :: [⟨.whitespace, " ", 1⟩] ∧
    ((⟨[⟨.bang, "!", 0⟩, ⟨.whitespace, " ", 1⟩], SyntaxTreeBuilder.new, []⟩ : Parser).bump
          .ERROR).map Parser.totalText =
        some (⟨[⟨.bang, "!", 0⟩, ⟨.whitespace, " ", 1⟩],
          SyntaxTreeBuilder.new, []⟩ : Parser).totalText ∧
    ((⟨[⟨.bang, "!", 0⟩, ⟨.whitespace, " ", 1⟩], SyntaxTreeBuilder.new, []⟩ : Parser).err_and_pop
          "expected definition").map Parser.totalText =
        some (SyntaxTreeBuilder.new.builderText ++ tokensText [⟨.whitespace, " ", 1⟩]) := by
  have h := bump_preserves_text_err_and_pop_drops_it
    (⟨[⟨.bang, "!", 0⟩, ⟨.whitespace, " ", 1⟩], SyntaxTreeBuilder.new, []⟩ : Parser)
    .ERROR "expected definition" ⟨.bang, "!", 0⟩ [⟨.whitespace, " ", 1⟩] rfl
  exact ⟨rfl, h.1, h.2.2.2⟩

/-- C1 counterexample: on the malformed input `"!"` the document dispatch
recovers through `err_and_pop`, so the tree's token text is empty rather
than `"!"` while an error is emitted — the round-trip fails on malformed
input. -/
theorem round_trip_fails_on_recovery :
    (parseInput "!").map (fun t => GreenChild.textList t.root) = some "" ∧
    (parseInput "!").map SyntaxTree.errors = some [⟨"expected definition", "!", 0⟩] ∧
    ("" : String) ≠ "!" := by
  refine ⟨rfl, rfl, by decide⟩

/-- C2: on the input `"ø ø"` the lexer reports two errors in source order
(indices 0 and 3); `Parser::new` reverses that list, so the tree returned
by `parse` carries them at indices 3 then 0 — not in source order. -/
theorem parse_errors_not_in_source_order :
    (parseInput "ø ø").map SyntaxTree.errors =
      some [⟨"Unexpected character", "ø", 3⟩, ⟨"Unexpected character", "ø", 0⟩] ∧
    ¬ List.Pairwise (fun a b : Error => a.index ≤ b.index)
      [(⟨"Unexpected character", "ø", 3⟩ : Error), ⟨"Unexpected character", "ø", 0⟩] := by
  refine ⟨rfl, by decide⟩




/-- C3 counterexample: `peek_n(1)` on a stream starting with a comma
returns the comma itself, not the name behind it, although the claim
counts commas as trivia to be skipped. -/
theorem peek_n_does_not_skip_commas :
    (Parser.new commaStream []).peek_n 1 = some .comma ∧
    nthSkippingTrivia commaStream 1 = some .name ∧
    (some TokenKind.comma ≠ some TokenKind.name) := by
  refine ⟨rfl, rfl, by decide⟩

/-- C3 (amended): `peek_n(k)` returns the kind of the k-th next token
counting every token that is not whitespace and not a comment — commas
are counted, not skipped. -/
theorem peek_n_skips_ws_comment_only (p : Parser) (n : Nat) (hn : 1 ≤ n) :
    p.peek_n n = nthSkippingWsComment p.tokens n := by
  have main : ∀ (l : List Token) (n : Nat), 1 ≤ n →
      ((l.filter fun t => !(t.kind == .whitespace || t.kind == .comment)).get?
          (n - 1)).map Token.kind = nthSkippingWsComment l n := by
    intro l
    induction l with
    | nil => intro n _; rfl
    | cons t ts ih =>
      intro n hn
      by_cases hw : t.kind = .whitespace ∨ t.kind = .comment
      · have hcond : (!(t.kind == .whitespace || t.kind == .comment)) = false := by
          rcases hw with h1 | h1 <;> simp [h1]
        simp only [List.filter_cons]
        rw [if_neg (by simp [hcond])]
        simp only [nthSkippingWsComment, if_pos hw]
        exact ih n hn
      · have h1 : t.kind ≠ .whitespace := fun h => hw (Or.inl h)
        have h2 : t.kind ≠ .comment := fun h => hw (Or.inr h)
        have hcond : (!(t.kind == .whitespace || t.kind == .comment)) = true := by
          simp [h1, h2]
        simp only [List.filter_cons]
        rw [if_pos hcond]
        match n, hn with
        | 1, _ =>
          simp only [nthSkippingWsComment, if_neg hw, if_pos (le_refl 1)]
          rfl
        | (m + 2), _ =>
          have hih := ih (m + 1) (by omega)
          simp only [nthSkippingWsComment, if_neg hw]
          rw [if_neg (by omega)]
          have hsub : (m + 2) - 1 = m + 1 := rfl
          rw [hsub, List.get?_cons_succ]
          simpa using hih
  exact main p.tokens n hn

/-- Witness for `peek_n_skips_ws_comment_only` at the comma stream with
`n = 1`. -/
theorem peek_n_skips_ws_comment_only_witness :
    1 ≤ 1 ∧ (Parser.new commaStream []).peek_n 1 = nthSkippingWsComment commaStream 1 :=
  ⟨by decide, peek_n_skips_ws_comment_only (Parser.new commaStream []) 1 (by decide)⟩



/-- C4: `start_node` consults no depth counter — it never changes the
error list, for any state — and at a nesting depth of 600 it silently
opens a 601st node instead of emitting a diagnostic. -/
theorem start_node_has_no_depth_check :
    (∀ (p : Parser) (k : SyntaxKind), (p.start_node k).errors = p.errors) ∧
    (deepParser.start_node .SELECTION_SET).errors = [] ∧
    (deepParser.start_node .SELECTION_SET).builder.frames.length = 601 := by
  refine ⟨fun p k => rfl, rfl, ?_⟩
  rw [Parser.start_node, bump_ignored_spec]
  have htake : ({ deepParser with
      builder := deepParser.builder.start_node .SELECTION_SET } : Parser).tokens.takeWhile
        isTriviaTok = [] := rfl
  rw [htake, List.foldl_nil]
  have hsn : (deepParser.builder.start_node .SELECTION_SET).frames =
      (SyntaxKind.SELECTION_SET, ([] : List GreenChild)) :: deepFrames := rfl
  rw [hsn, List.length_cons]
  simp only [deepFrames, List.length_replicate]



/-- C10 counterexample: the rendered string contains `@deprecated`
followed by a parenthesized reason although `deprecated` was never called
on the builder (`is_deprecated` is `false`) — containment alone is not
equivalent to the deprecation having been set. -/
theorem display_contains_deprecated_without_call :
    strContains advEnumValue.display "@deprecated(reason:" = true ∧
    advEnumValue.is_deprecated = false := by
  exact ⟨by decide, rfl⟩

/-- C10 (amended): for every builder, `is_deprecated` equals whether a
deprecation reason was set, and the rendered string is exactly the
rendering of the same builder without the deprecation followed by
` @deprecated(reason:<rendered reason>)` when — and only when — a reason
was set. -/
theorem display_appends_deprecation_iff_set (b : EnumValueBuilder) :
    b.build.is_deprecated = b.deprecation_reason.isSome ∧
    b.build.display =
      ({ b with deprecation_reason := none } : EnumValueBuilder).build.display ++
        (match b.deprecation_reason with
          | some r => " @deprecated(reason:" ++ StringValue.display (.reason (some r)) ++ ")"
          | none => "") := by
  refine ⟨rfl, ?_⟩
  cases hr : b.deprecation_reason with
  | none => simp [EnumValueBuilder.build, EnumValue.display, hr, String.append_empty]
  | some r =>
    have hlit : (" @deprecated" ++ "(reason:" : String) = " @deprecated(reason:" := rfl
    simp only [EnumValueBuilder.build, EnumValue.display, hr, Option.isSome_some,
      Option.isSome_none, if_pos, if_neg, Bool.false_eq_true, not_false_eq_true,
      if_true, if_false, String.append_empty, ← hlit, String.append_assoc]

end Apollo
